import Mathlib

/-!
Verification of the text-analysis subsystem in `python-crawler/ml_api.py`.

The module exposes two request handlers (`/ml/ner` and `/ml/classify`) over
two lazily initialized engine slots held in module-level globals `nlp` and
`classifier`.  The classifier is a scikit-learn `CountVectorizer` +
`MultinomialNB` pipeline fit on a fixed 12-example corpus; since every
quantity in that model (Laplace-smoothed feature probabilities, class
priors, posteriors) is a ratio of integers, the pipeline is embedded here
with exact rational arithmetic (`ℚ`).  scikit-learn computes in log space
and argmaxes joint log-likelihoods; `log` is strictly monotone and every
likelihood below is positive, so maxima and argmaxes agree with the
probability-space formulation used here.

The spaCy engine is an external pretrained capability; it is embedded as an
abstract function from input text to a list of native spans, each carrying
a native label and character offsets.
-/

namespace MLApi

/-! ### CountVectorizer tokenizer

`CountVectorizer` defaults: lowercase the input, then extract tokens with
the pattern `\b\w\w+\b`, i.e. maximal runs of word characters of length at
least two (the ASCII fragment of `\w` is modelled: letters, digits,
underscore).  Lowercasing word characters during the scan is equivalent to
lowercasing the string first, because lowercasing preserves word-character
status in ASCII. -/

def isWordChar (c : Char) : Bool :=
  c.isAlphanum || c = '_'

def flushTok (acc : List Char) : List (List Char) :=
  if acc.length ≥ 2 then [acc.reverse] else []

def tokenizeAux : List Char → List Char → List (List Char)
  | [], acc => flushTok acc
  | c :: cs, acc =>
    if isWordChar c then tokenizeAux cs (c.toLower :: acc)
    else flushTok acc ++ tokenizeAux cs []

def tokenize (s : String) : List String :=
  (tokenizeAux s.toList []).map String.mk

/-! ### Training corpus (hardcoded in `load_models`) -/

def X_train : List String :=
  ["Apple released a new iPhone today", "Google updates search algorithm", "Python release notes",
   "Stock markets hit record high", "Fed raises interest rates", "Bitcoin price drops",
   "New vaccine approved by FDA", "Benefits of meditation", "COVID-19 case numbers",
   "Manchester United wins match", "NBA finals scores", "Olympics gold medal"]

def y_train : List String :=
  ["Tech", "Tech", "Tech", "Finance", "Finance", "Finance",
   "Health", "Health", "Health", "Sports", "Sports", "Sports"]

def corpus : List (String × String) := X_train.zip y_train

/-! ### Fitted model parameters

`np.unique` sorts labels lexicographically to produce `classes_`, and
`CountVectorizer` sorts its vocabulary; the sort is modelled by insertion
sort over codepoint-lexicographic order. -/

def charListLe : List Char → List Char → Bool
  | [], _ => true
  | _ :: _, [] => false
  | a :: as, b :: bs =>
    if a.val < b.val then true
    else if b.val < a.val then false
    else charListLe as bs

def strLe (a b : String) : Bool := charListLe a.toList b.toList

def insertSorted (x : String) : List String → List String
  | [] => [x]
  | y :: ys => if strLe x y then x :: y :: ys else y :: insertSorted x ys

def sortStrings : List String → List String
  | [] => []
  | x :: xs => insertSorted x (sortStrings xs)

/-- Sorted distinct training labels: the `classes_` of the fitted `MultinomialNB`. -/
def classes : List String := sortStrings y_train.dedup

/-- The fitted `CountVectorizer` vocabulary: sorted distinct corpus tokens. -/
def vocab : List String := sortStrings (X_train.flatMap tokenize).dedup

/-- All tokens of the training documents carrying label `c`. -/
def classTokens (c : String) : List String :=
  ((corpus.filter (fun p => p.2 == c)).map Prod.fst).flatMap tokenize

/-- Feature count: occurrences of vocabulary word `w` in class `c`'s documents. -/
def Ncw (c w : String) : Nat := (classTokens c).count w

/-- Per-class total feature count (`feature_count_.sum(axis=1)`). -/
def Nc (c : String) : Nat := (vocab.map (fun w => Ncw c w)).sum

/-- Laplace-smoothed (`alpha = 1`) per-class word probability of `MultinomialNB`. -/
def theta (c w : String) : ℚ :=
  ((Ncw c w : ℚ) + 1) / ((Nc c : ℚ) + (vocab.length : ℚ))

/-- Class prior (`class_count_ / n_samples`). -/
def prior (c : String) : ℚ :=
  ((corpus.filter (fun p => p.2 == c)).length : ℚ) / (corpus.length : ℚ)

/-- Input tokens retained by `CountVectorizer.transform`: tokens outside the
fitted vocabulary are dropped. -/
def recognizedTokens (x : String) : List String :=
  (tokenize x).filter (fun t => vocab.contains t)

/-- Unnormalized joint likelihood of class `c` for input `x`
(`exp` of scikit-learn's joint log-likelihood). -/
def likelihood (c x : String) : ℚ :=
  prior c * ((recognizedTokens x).map (fun w => theta c w)).prod

def totalLikelihood (x : String) : ℚ :=
  (classes.map (fun c => likelihood c x)).sum

/-- Normalized posterior probability of class `c` given `x`
(one entry of `predict_proba`). -/
def posterior (x c : String) : ℚ := likelihood c x / totalLikelihood x

/-- The scan of `np.argmax` over a nonempty candidate list: keeps the
earliest maximum, replacing the running best only on a strictly larger
value. -/
def argmaxAux (f : String → ℚ) (best : String) : List String → String
  | [] => best
  | c :: cs => if f best < f c then argmaxAux f c cs else argmaxAux f best cs

def bestOf (l : List String) (f : String → ℚ) : String :=
  match l with
  | [] => ""
  | c :: cs => argmaxAux f c cs

/-- The value of `pipeline.predict([x])[0]`: the class with maximal joint
likelihood, earliest class on ties (as `np.argmax`). -/
def predictClass (x : String) : String :=
  bestOf classes (fun c => likelihood c x)

/-- The value of `pipeline.predict_proba([x])[0]`, in `classes_` order. -/
def predictProba (x : String) : List ℚ :=
  classes.map (fun c => posterior x c)

/-- The maximum (`np.max`) of a list of probabilities (0 on the empty list,
which the code never hits: `classes` is nonempty). -/
def npMax : List ℚ → ℚ
  | [] => 0
  | x :: xs => xs.foldl max x

/-! ### Response contracts -/

structure ClassificationResponse where
  category : String
  confidence : ℚ
deriving DecidableEq

/-- The body of `classify_text` once the classifier is available
(lines 111-118 of `ml_api.py`): `predict` then the max of `predict_proba`. -/
def classify (x : String) : ClassificationResponse :=
  ⟨predictClass x, npMax (predictProba x)⟩

/-! ### Entity extraction -/

/-- A native span produced by the spaCy pipeline: `ent.text`, `ent.label_`,
and character offsets into the input. -/
structure SpacyEnt where
  text : String
  label_ : String
  start_char : Nat
  end_char : Nat
deriving DecidableEq

/-- The external pretrained linguistic engine, abstractly: input text to
native candidate spans. -/
def Extractor : Type := String → List SpacyEnt

structure Entity where
  text : String
  label : String
deriving DecidableEq

structure NERResponse where
  entities : List Entity
deriving DecidableEq

/-- The label allow-list hardcoded in `extract_entities`. -/
def allowList : List String :=
  ["PERSON", "ORG", "GPE", "LOC", "PRODUCT", "EVENT", "DATE", "MONEY"]

/-- Native spans surviving the allow-list filter, in native order. -/
def keptSpans (engine : Extractor) (text : String) : List SpacyEnt :=
  (engine text).filter (fun ent => decide (ent.label_ ∈ allowList))

/-- The body of `extract_entities` once the engine is available: the filter
and projection of the list comprehension at lines 92-97. -/
def runNER (engine : Extractor) (text : String) : NERResponse :=
  ⟨(keptSpans engine text).map (fun ent => Entity.mk ent.text ent.label_)⟩

/-- Python slice `text[i:j]` over code points, as used by spaCy to realize
`ent.text` from offsets. -/
def sliceOf (t : String) (i j : Nat) : String :=
  String.mk ((t.toList.drop i).take (j - i))

/-- A trivial engine recognizing nothing (concrete stand-in for a loaded
pipeline in closed instantiations). -/
def emptyEngine : Extractor := fun _ => []

/-- A concrete engine emitting the spans spaCy finds in the sentence
`"Apple released a new iPhone today"`, including one span (`DET`) outside
the allow-list. -/
def demoEngine : Extractor := fun _ =>
  [⟨"Apple", "ORG", 0, 5⟩, ⟨"a", "DET", 15, 16⟩, ⟨"today", "DATE", 28, 33⟩]

/-! ### Model registry (`nlp` / `classifier` globals) and `load_models` -/

/-- The fitted pipeline object stored in the `classifier` global: its
`predict` / `predict_proba` interface. -/
structure FittedPipeline where
  predict : String → String
  predict_proba : String → List ℚ

/-- The pipeline produced by the (deterministic) training block of
`load_models`: `CountVectorizer` + `MultinomialNB` fit on `X_train`, `y_train`. -/
def trainPipeline : FittedPipeline :=
  ⟨predictClass, predictProba⟩

/-- The two module-level globals. -/
structure RegistryState where
  nlp : Option Extractor
  classifier : Option FittedPipeline

/-- One run of `load_models`, instrumented: final globals, any exception
escaping the call, and how many times each underlying construction
(`spacy.load`, `pipeline.fit`) ran.  `spacyLoad` is the outcome of
`spacy.load("en_core_web_sm")` (an `error` covers both the `OSError` and the
generic `Exception` branch of the `try` block — both are caught and only
logged, leaving `nlp` unset).  `fitOutcome` is the outcome of the classifier
training block, which has no exception guard in the source: a failure there
escapes `load_models` with `classifier` still unset. -/
def load_models_instr (spacyLoad : Except String Extractor)
    (fitOutcome : Except String FittedPipeline) (s : RegistryState) :
    RegistryState × Option String × Nat × Nat :=
  let step1 : RegistryState × Nat :=
    match s.nlp with
    | some _ => (s, 0)
    | none =>
      match spacyLoad with
      | .ok engine => ({ s with nlp := some engine }, 1)
      | .error _ => (s, 1)
  match step1.1.classifier with
  | some _ => (step1.1, none, step1.2, 0)
  | none =>
    match fitOutcome with
    | .ok p => ({ step1.1 with classifier := some p }, none, step1.2, 1)
    | .error e => (step1.1, some e, step1.2, 1)

/-- The run of `load_models` as the handlers see it: training always succeeds and
produces the fixed fitted pipeline (the source models no failure path for
it). -/
def load_models (spacyLoad : Except String Extractor) (s : RegistryState) : RegistryState :=
  (load_models_instr spacyLoad (.ok trainPipeline) s).1

/-! ### Request handlers -/

/-- A handler either returns a response or raises `HTTPException(status, detail)`. -/
inductive HandlerResult (α : Type) where
  | ok (val : α)
  | httpError (status : Nat) (detail : String)
deriving DecidableEq

/-- The `/ml/ner` handler: on a cold `nlp` slot it retries `load_models`
exactly once, then either serves or raises 503.  Returns the final globals,
the number of `load_models` invocations made, and the outcome. -/
def extract_entities (spacyLoad : Except String Extractor) (s : RegistryState)
    (text : String) : RegistryState × Nat × HandlerResult NERResponse :=
  match s.nlp with
  | some engine => (s, 0, .ok (runNER engine text))
  | none =>
    let s2 := load_models spacyLoad s
    match s2.nlp with
    | some engine => (s2, 1, .ok (runNER engine text))
    | none => (s2, 1, .httpError 503 "ML Model not loaded")

/-- The `/ml/classify` handler, same retry structure over the `classifier`
slot; on a ready pipeline it returns `predict` and the max of `predict_proba`. -/
def classify_text (spacyLoad : Except String Extractor) (s : RegistryState)
    (text : String) : RegistryState × Nat × HandlerResult ClassificationResponse :=
  match s.classifier with
  | some p => (s, 0, .ok ⟨p.predict text, npMax (p.predict_proba text)⟩)
  | none =>
    let s2 := load_models spacyLoad s
    match s2.classifier with
    | some p => (s2, 1, .ok ⟨p.predict text, npMax (p.predict_proba text)⟩)
    | none => (s2, 1, .httpError 503 "Classifier not loaded")

/-- Registry states reachable by this module: the `classifier` global only
ever holds the pipeline trained by `load_models`. -/
def WFState (s : RegistryState) : Prop :=
  s.classifier = none ∨ s.classifier = some trainPipeline

/-! ### Concrete facts about the fitted model, by evaluation -/

theorem classes_eq : classes = ["Finance", "Health", "Sports", "Tech"] := by decide

theorem classes_ne_nil : classes ≠ [] := by decide

theorem vocab_len : vocab.length = 45 := by decide

theorem corpus_len : corpus.length = 12 := by decide

theorem class_doc_counts : ∀ c ∈ classes, (corpus.filter (fun p => p.2 == c)).length = 3 := by
  decide

/-! ### Evaluation helpers for the rational layer -/

theorem prior_eval : ∀ c ∈ classes, prior c = 1 / 4 := by
  intro c hc
  rw [prior, class_doc_counts c hc, corpus_len]
  norm_num

theorem theta_map (c : String) (ws : List String) :
    ws.map (theta c) =
      (ws.map (fun w => Ncw c w)).map
        (fun (n : Nat) => ((n : ℚ) + 1) / ((Nc c : ℚ) + (vocab.length : ℚ))) := by
  rw [List.map_map]
  rfl

theorem likelihood_eval (c x : String) (ts : List String)
    (h : recognizedTokens x = ts) :
    likelihood c x = prior c * (ts.map (theta c)).prod := by
  rw [likelihood, h]

theorem likelihood_oov (c x : String) (h : recognizedTokens x = []) :
    likelihood c x = prior c := by
  rw [likelihood, h, List.map_nil, List.prod_nil, mul_one]

/-! ### Positivity of the posterior machinery -/

theorem prior_nonneg (c : String) : 0 ≤ prior c := by
  rw [prior]
  positivity

theorem prior_pos (c : String) (hc : c ∈ classes) : 0 < prior c := by
  rw [prior_eval c hc]
  norm_num

theorem theta_pos (c w : String) : 0 < theta c w := by
  rw [theta]
  apply div_pos
  · positivity
  · have h1 : (0 : ℚ) ≤ (Nc c : ℚ) := Nat.cast_nonneg _
    have h2 : (0 : ℚ) < (vocab.length : ℚ) := by
      rw [vocab_len]
      norm_num
    linarith

theorem likelihood_nonneg (c x : String) : 0 ≤ likelihood c x := by
  rw [likelihood]
  apply mul_nonneg (prior_nonneg c)
  apply List.prod_nonneg
  intro a ha
  obtain ⟨w, _, rfl⟩ := List.mem_map.1 ha
  exact le_of_lt (theta_pos c w)

theorem likelihood_pos (c x : String) (hc : c ∈ classes) : 0 < likelihood c x := by
  rw [likelihood]
  apply mul_pos (prior_pos c hc)
  apply List.prod_pos
  intro a ha
  obtain ⟨w, _, rfl⟩ := List.mem_map.1 ha
  exact theta_pos c w

theorem totalLikelihood_pos (x : String) : 0 < totalLikelihood x := by
  rw [totalLikelihood]
  apply List.sum_pos
  · intro a ha
    obtain ⟨c, hc, rfl⟩ := List.mem_map.1 ha
    exact likelihood_pos c x hc
  · rw [classes_eq]
    simp

theorem posterior_nonneg (x c : String) : 0 ≤ posterior x c :=
  div_nonneg (likelihood_nonneg c x) (le_of_lt (totalLikelihood_pos x))

theorem likelihood_le_total (x c : String) (hc : c ∈ classes) :
    likelihood c x ≤ totalLikelihood x := by
  rw [totalLikelihood]
  refine List.single_le_sum ?_ _ (List.mem_map.2 ⟨c, hc, rfl⟩)
  intro a ha
  obtain ⟨d, _, rfl⟩ := List.mem_map.1 ha
  exact likelihood_nonneg d x

theorem posterior_le_one (x c : String) (hc : c ∈ classes) : posterior x c ≤ 1 :=
  (div_le_one (totalLikelihood_pos x)).2 (likelihood_le_total x c hc)

theorem posterior_lt_posterior (x a b : String) :
    posterior x a < posterior x b ↔ likelihood a x < likelihood b x := by
  rw [posterior, posterior]
  exact div_lt_div_iff_of_pos_right (totalLikelihood_pos x)

theorem posterior_le_posterior (x a b : String) :
    posterior x a ≤ posterior x b ↔ likelihood a x ≤ likelihood b x := by
  rw [posterior, posterior]
  exact div_le_div_iff_of_pos_right (totalLikelihood_pos x)

/-! ### Properties of the argmax / max scan -/

theorem argmaxAux_mem (f : String → ℚ) (b : String) (l : List String) :
    argmaxAux f b l ∈ b :: l := by
  induction l generalizing b with
  | nil => simp [argmaxAux]
  | cons c cs ih =>
    simp only [argmaxAux]
    by_cases h : f b < f c
    · rw [if_pos h]
      rcases List.mem_cons.1 (ih c) with h2 | h2
      · rw [h2]
        simp
      · exact List.mem_cons_of_mem _ (List.mem_cons_of_mem _ h2)
    · rw [if_neg h]
      rcases List.mem_cons.1 (ih b) with h2 | h2
      · rw [h2]
        simp
      · exact List.mem_cons_of_mem _ (List.mem_cons_of_mem _ h2)

theorem le_argmaxAux (f : String → ℚ) (b : String) (l : List String) :
    f b ≤ f (argmaxAux f b l) ∧ ∀ x ∈ l, f x ≤ f (argmaxAux f b l) := by
  induction l generalizing b with
  | nil => simp [argmaxAux]
  | cons c cs ih =>
    simp only [argmaxAux]
    by_cases h : f b < f c
    · rw [if_pos h]
      refine ⟨le_trans (le_of_lt h) (ih c).1, ?_⟩
      intro x hx
      rcases List.mem_cons.1 hx with h2 | hx2
      · rw [h2]
        exact (ih c).1
      · exact (ih c).2 x hx2
    · rw [if_neg h]
      refine ⟨(ih b).1, ?_⟩
      intro x hx
      rcases List.mem_cons.1 hx with h2 | hx2
      · rw [h2]
        exact le_trans (not_lt.1 h) (ih b).1
      · exact (ih b).2 x hx2

theorem foldl_max_map (f : String → ℚ) (b : String) (l : List String) :
    (l.map f).foldl max (f b) = f (argmaxAux f b l) := by
  induction l generalizing b with
  | nil => simp [argmaxAux]
  | cons c cs ih =>
    simp only [List.map_cons, List.foldl_cons, argmaxAux]
    by_cases h : f b < f c
    · rw [if_pos h, max_eq_right (le_of_lt h), ih c]
    · rw [if_neg h, max_eq_left (not_lt.1 h), ih b]

theorem argmaxAux_congr_lt (f g : String → ℚ)
    (h : ∀ a b, f a < f b ↔ g a < g b) (b : String) (l : List String) :
    argmaxAux f b l = argmaxAux g b l := by
  induction l generalizing b with
  | nil => rfl
  | cons c cs ih =>
    simp only [argmaxAux]
    by_cases hc : f b < f c
    · rw [if_pos hc, if_pos ((h b c).1 hc), ih]
    · rw [if_neg hc, if_neg (fun hg => hc ((h b c).2 hg)), ih]

theorem npMax_cons (a : ℚ) (l : List ℚ) : npMax (a :: l) = l.foldl max a := rfl

/-! ### Core properties of `classify` -/

theorem predictClass_mem (x : String) : predictClass x ∈ classes := by
  rw [predictClass, classes_eq]
  exact argmaxAux_mem (fun c => likelihood c x) "Finance" ["Health", "Sports", "Tech"]

theorem confidence_eq_posterior_predict (x : String) :
    npMax (predictProba x) = posterior x (predictClass x) := by
  rw [predictProba, predictClass, classes_eq]
  rw [List.map_cons, npMax_cons]
  rw [foldl_max_map (fun c => posterior x c) "Finance" ["Health", "Sports", "Tech"]]
  rw [argmaxAux_congr_lt (fun c => posterior x c) (fun c => likelihood c x)
    (fun a b => posterior_lt_posterior x a b) "Finance" ["Health", "Sports", "Tech"]]
  rfl

theorem posterior_le_npMax (x : String) :
    ∀ c ∈ classes, posterior x c ≤ npMax (predictProba x) := by
  intro c hc
  rw [confidence_eq_posterior_predict]
  rw [posterior_le_posterior]
  rw [predictClass, classes_eq]
  rw [classes_eq] at hc
  have h := le_argmaxAux (fun c => likelihood c x) "Finance" ["Health", "Sports", "Tech"]
  rcases List.mem_cons.1 hc with h2 | hc2
  · rw [h2]
    exact h.1
  · exact h.2 c hc2

theorem classify_category_mem (x : String) : (classify x).category ∈ classes :=
  predictClass_mem x

theorem classify_confidence_nonneg (x : String) : 0 ≤ (classify x).confidence := by
  have h : (classify x).confidence = posterior x (predictClass x) :=
    confidence_eq_posterior_predict x
  rw [h]
  exact posterior_nonneg x (predictClass x)

theorem classify_confidence_le_one (x : String) : (classify x).confidence ≤ 1 := by
  have h : (classify x).confidence = posterior x (predictClass x) :=
    confidence_eq_posterior_predict x
  rw [h]
  exact posterior_le_one x (predictClass x) (predictClass_mem x)

/-! ### Registry and handler behaviour -/

theorem load_models_nlp_some (sl : Except String Extractor) (s : RegistryState)
    (e : Extractor) (h : s.nlp = some e) : (load_models sl s).nlp = some e := by
  rw [load_models, load_models_instr.eq_def]
  cases hc : s.classifier <;> simp [h, hc]

theorem load_models_classifier (sl : Except String Extractor) (s : RegistryState)
    (h : s.classifier = none) : (load_models sl s).classifier = some trainPipeline := by
  rw [load_models, load_models_instr.eq_def]
  cases hn : s.nlp <;> cases sl <;> simp [h, hn]

theorem load_models_classifier_kept (sl : Except String Extractor) (s : RegistryState)
    (p : FittedPipeline) (h : s.classifier = some p) :
    (load_models sl s).classifier = some p := by
  rw [load_models, load_models_instr.eq_def]
  cases hn : s.nlp <;> cases sl <;> simp [h, hn]

theorem classify_text_ok_shape (sl : Except String Extractor) (s : RegistryState)
    (text : String) (r : ClassificationResponse) (hwf : WFState s)
    (hr : (classify_text sl s text).2.2 = .ok r) : r = classify text := by
  rcases hwf with h | h
  · simp only [classify_text, h, load_models_classifier sl s h] at hr
    simp only [HandlerResult.ok.injEq] at hr
    exact hr.symm
  · simp only [classify_text, h] at hr
    simp only [HandlerResult.ok.injEq] at hr
    exact hr.symm

theorem extract_ok_shape (sl : Except String Extractor) (s : RegistryState)
    (text : String) (r : NERResponse)
    (hr : (extract_entities sl s text).2.2 = .ok r) :
    ∃ engine, r = runNER engine text := by
  cases hn : s.nlp with
  | some engine =>
    simp only [extract_entities, hn, HandlerResult.ok.injEq] at hr
    exact ⟨engine, hr.symm⟩
  | none =>
    cases hn2 : (load_models sl s).nlp with
    | some engine =>
      simp only [extract_entities, hn, hn2, HandlerResult.ok.injEq] at hr
      exact ⟨engine, hr.symm⟩
    | none =>
      simp only [extract_entities, hn, hn2] at hr
      exact absurd hr (by simp)

theorem runNER_labels (engine : Extractor) (text : String) :
    ∀ ent ∈ (runNER engine text).entities, ent.label ∈ allowList := by
  intro ent hent
  rw [runNER] at hent
  obtain ⟨sp, hsp, rfl⟩ := List.mem_map.1 hent
  have h := List.of_mem_filter hsp
  exact of_decide_eq_true h

/-! ### Inputs with no vocabulary token: the native prior fallback -/

theorem posterior_oov_prior (x c : String) (h : recognizedTokens x = []) :
    posterior x c = prior c := by
  have htot : totalLikelihood x = 1 := by
    rw [totalLikelihood]
    have h1 : classes.map (fun c => likelihood c x) = classes.map prior :=
      List.map_congr_left (fun c _ => likelihood_oov c x h)
    have h2 : classes.map prior = classes.map (fun _ => (1 / 4 : ℚ)) :=
      List.map_congr_left (fun c hc => prior_eval c hc)
    rw [h1, h2, classes_eq]
    norm_num
  rw [posterior, likelihood_oov c x h, htot, div_one]

theorem posterior_oov (x c : String) (h : recognizedTokens x = [])
    (hc : c ∈ classes) : posterior x c = 1 / 4 := by
  rw [posterior_oov_prior x c h, prior_eval c hc]

theorem predictClass_oov (x : String) (h : recognizedTokens x = []) :
    predictClass x = "Finance" := by
  have hF : likelihood "Finance" x = 1 / 4 := by
    rw [likelihood_oov _ _ h, prior_eval _ (by decide)]
  have hH : likelihood "Health" x = 1 / 4 := by
    rw [likelihood_oov _ _ h, prior_eval _ (by decide)]
  have hS : likelihood "Sports" x = 1 / 4 := by
    rw [likelihood_oov _ _ h, prior_eval _ (by decide)]
  have hT : likelihood "Tech" x = 1 / 4 := by
    rw [likelihood_oov _ _ h, prior_eval _ (by decide)]
  rw [predictClass, classes_eq]
  show argmaxAux (fun c => likelihood c x) "Finance" ["Health", "Sports", "Tech"] = "Finance"
  simp only [argmaxAux]
  rw [if_neg (by rw [hF, hH]; exact lt_irrefl _),
    if_neg (by rw [hF, hS]; exact lt_irrefl _),
    if_neg (by rw [hF, hT]; exact lt_irrefl _)]

theorem npMax_oov (x : String) (h : recognizedTokens x = []) :
    npMax (predictProba x) = 1 / 4 := by
  rw [predictProba]
  have h1 : classes.map (fun c => posterior x c) = classes.map (fun _ => (1 / 4 : ℚ)) :=
    List.map_congr_left (fun c hc => posterior_oov x c h hc)
  rw [h1, classes_eq]
  simp [npMax_cons]

theorem classify_oov (x : String) (h : recognizedTokens x = []) :
    classify x = ⟨"Finance", 1 / 4⟩ := by
  rw [classify, predictClass_oov x h, npMax_oov x h]

/-! ### Exact likelihoods on the two scenario inputs -/

theorem lik_apple_Finance :
    likelihood "Finance" "Apple released a new iPhone today" = 1 / 2406768228 := by
  rw [likelihood_eval "Finance" _ ["apple", "released", "new", "iphone", "today"] (by decide),
    theta_map,
    show ["apple", "released", "new", "iphone", "today"].map (fun w => Ncw "Finance" w) =
      [0, 0, 0, 0, 0] from by decide,
    prior_eval "Finance" (by decide)]
  simp only [show Nc "Finance" = 12 from by decide, vocab_len]
  norm_num

theorem lik_apple_Health :
    likelihood "Health" "Apple released a new iPhone today" = 1 / 1203384114 := by
  rw [likelihood_eval "Health" _ ["apple", "released", "new", "iphone", "today"] (by decide),
    theta_map,
    show ["apple", "released", "new", "iphone", "today"].map (fun w => Ncw "Health" w) =
      [0, 0, 1, 0, 0] from by decide,
    prior_eval "Health" (by decide)]
  simp only [show Nc "Health" = 12 from by decide, vocab_len]
  norm_num

theorem lik_apple_Sports :
    likelihood "Sports" "Apple released a new iPhone today" = 1 / 2013137500 := by
  rw [likelihood_eval "Sports" _ ["apple", "released", "new", "iphone", "today"] (by decide),
    theta_map,
    show ["apple", "released", "new", "iphone", "today"].map (fun w => Ncw "Sports" w) =
      [0, 0, 0, 0, 0] from by decide,
    prior_eval "Sports" (by decide)]
  simp only [show Nc "Sports" = 10 from by decide, vocab_len]
  norm_num

theorem lik_apple_Tech :
    likelihood "Tech" "Apple released a new iPhone today" = 8 / 601692057 := by
  rw [likelihood_eval "Tech" _ ["apple", "released", "new", "iphone", "today"] (by decide),
    theta_map,
    show ["apple", "released", "new", "iphone", "today"].map (fun w => Ncw "Tech" w) =
      [1, 1, 1, 1, 1] from by decide,
    prior_eval "Tech" (by decide)]
  simp only [show Nc "Tech" = 12 from by decide, vocab_len]
  norm_num

theorem lik_manu_Finance :
    likelihood "Finance" "Manchester United wins match" = 1 / 42224004 := by
  rw [likelihood_eval "Finance" _ ["manchester", "united", "wins", "match"] (by decide),
    theta_map,
    show ["manchester", "united", "wins", "match"].map (fun w => Ncw "Finance" w) =
      [0, 0, 0, 0] from by decide,
    prior_eval "Finance" (by decide)]
  simp only [show Nc "Finance" = 12 from by decide, vocab_len]
  norm_num

theorem lik_manu_Health :
    likelihood "Health" "Manchester United wins match" = 1 / 42224004 := by
  rw [likelihood_eval "Health" _ ["manchester", "united", "wins", "match"] (by decide),
    theta_map,
    show ["manchester", "united", "wins", "match"].map (fun w => Ncw "Health" w) =
      [0, 0, 0, 0] from by decide,
    prior_eval "Health" (by decide)]
  simp only [show Nc "Health" = 12 from by decide, vocab_len]
  norm_num

theorem lik_manu_Sports :
    likelihood "Sports" "Manchester United wins match" = 4 / 9150625 := by
  rw [likelihood_eval "Sports" _ ["manchester", "united", "wins", "match"] (by decide),
    theta_map,
    show ["manchester", "united", "wins", "match"].map (fun w => Ncw "Sports" w) =
      [1, 1, 1, 1] from by decide,
    prior_eval "Sports" (by decide)]
  simp only [show Nc "Sports" = 10 from by decide, vocab_len]
  norm_num

theorem lik_manu_Tech :
    likelihood "Tech" "Manchester United wins match" = 1 / 42224004 := by
  rw [likelihood_eval "Tech" _ ["manchester", "united", "wins", "match"] (by decide),
    theta_map,
    show ["manchester", "united", "wins", "match"].map (fun w => Ncw "Tech" w) =
      [0, 0, 0, 0] from by decide,
    prior_eval "Tech" (by decide)]
  simp only [show Nc "Tech" = 12 from by decide, vocab_len]
  norm_num

/-! ### The claims -/

/-- C1: for every input accepted by `classify_text` with a trained
classifier, the response's confidence lies in [0,1], the category belongs to
the trained label set (`classes`, concretely Finance/Health/Sports/Tech),
the confidence equals the maximum posterior probability over the four
classes, and the category is the argmax class: its posterior equals the
confidence. -/
theorem classify_confidence_max_posterior (sl : Except String Extractor)
    (s : RegistryState) (text : String) (r : ClassificationResponse)
    (hwf : WFState s) (hr : (classify_text sl s text).2.2 = .ok r) :
    0 ≤ r.confidence ∧ r.confidence ≤ 1 ∧
    classes = ["Finance", "Health", "Sports", "Tech"] ∧
    r.category ∈ classes ∧
    r.confidence = npMax (classes.map (fun c => posterior text c)) ∧
    (∀ c ∈ classes, posterior text c ≤ r.confidence) ∧
    posterior text r.category = r.confidence := by
  have hre : r = classify text := classify_text_ok_shape sl s text r hwf hr
  subst hre
  refine ⟨classify_confidence_nonneg text, classify_confidence_le_one text, classes_eq,
    classify_category_mem text, rfl, ?_, ?_⟩
  · exact fun c hc => posterior_le_npMax text c hc
  · exact (confidence_eq_posterior_predict text).symm

theorem classify_confidence_max_posterior_witness :
    0 ≤ (classify "Bitcoin price drops").confidence ∧
    (classify "Bitcoin price drops").confidence ≤ 1 ∧
    classes = ["Finance", "Health", "Sports", "Tech"] ∧
    (classify "Bitcoin price drops").category ∈ classes ∧
    (classify "Bitcoin price drops").confidence =
      npMax (classes.map (fun c => posterior "Bitcoin price drops" c)) ∧
    (∀ c ∈ classes,
      posterior "Bitcoin price drops" c ≤ (classify "Bitcoin price drops").confidence) ∧
    posterior "Bitcoin price drops" (classify "Bitcoin price drops").category =
      (classify "Bitcoin price drops").confidence :=
  classify_confidence_max_posterior (Except.error "boom") ⟨none, none⟩
    "Bitcoin price drops" (classify "Bitcoin price drops") (Or.inl rfl) rfl

/-- C2: every entity in a successful `extract_entities` response carries a
label from the fixed allow-list; no other native label ever appears. -/
theorem ner_labels_allowlisted (sl : Except String Extractor) (s : RegistryState)
    (text : String) (r : NERResponse)
    (hr : (extract_entities sl s text).2.2 = .ok r) :
    ∀ ent ∈ r.entities, ent.label ∈ allowList := by
  obtain ⟨engine, rfl⟩ := extract_ok_shape sl s text r hr
  exact runNER_labels engine text

theorem ner_labels_allowlisted_witness :
    Entity.mk "Apple" "ORG" ∈
      (runNER demoEngine "Apple released a new iPhone today").entities ∧
    (Entity.mk "Apple" "ORG").label ∈ allowList :=
  ⟨by decide,
    ner_labels_allowlisted (Except.error "e") ⟨some demoEngine, none⟩
      "Apple released a new iPhone today"
      (runNER demoEngine "Apple released a new iPhone today") rfl
      (Entity.mk "Apple" "ORG") (by decide)⟩

/-- C3: a request hitting a cold slot makes exactly one `load_models`
retry; if the slot is still unavailable afterwards the caller gets the 503
service-unavailable error (never a partial or empty-but-successful result),
and if the retry succeeded the call serves normally.  The classifier slot
always trains on retry, so its cold path always serves.  These hold for
every `spacy.load` outcome, including arbitrary caught exceptions: no
internal exception crosses the handler boundary. -/
theorem cold_slot_single_retry_503 (sl : Except String Extractor)
    (s : RegistryState) (text : String) :
    (s.nlp = none →
      (extract_entities sl s text).2.1 = 1 ∧
      ((load_models sl s).nlp = none →
        (extract_entities sl s text).2.2 = .httpError 503 "ML Model not loaded") ∧
      (∀ e, (load_models sl s).nlp = some e →
        (extract_entities sl s text).2.2 = .ok (runNER e text))) ∧
    (s.classifier = none →
      (classify_text sl s text).2.1 = 1 ∧
      (classify_text sl s text).2.2 =
        .ok ⟨predictClass text, npMax (predictProba text)⟩) := by
  constructor
  · intro hn
    refine ⟨?_, ?_, ?_⟩
    · cases h2 : (load_models sl s).nlp <;> simp [extract_entities, hn, h2]
    · intro h2
      simp [extract_entities, hn, h2]
    · intro e h2
      simp [extract_entities, hn, h2]
  · intro hc
    have h2 := load_models_classifier sl s hc
    constructor
    · simp [classify_text, hc, h2]
    · simp [classify_text, hc, h2]
      exact ⟨rfl, rfl⟩

theorem cold_slot_single_retry_503_witness :
    (extract_entities (Except.error "missing model") ⟨none, none⟩ "hi").2.1 = 1 ∧
    (extract_entities (Except.error "missing model") ⟨none, none⟩ "hi").2.2 =
      .httpError 503 "ML Model not loaded" ∧
    (classify_text (Except.error "missing model") ⟨none, none⟩ "hi").2.1 = 1 ∧
    (classify_text (Except.error "missing model") ⟨none, none⟩ "hi").2.2 =
      .ok ⟨predictClass "hi", npMax (predictProba "hi")⟩ := by
  have h := cold_slot_single_retry_503 (Except.error "missing model") ⟨none, none⟩ "hi"
  exact ⟨(h.1 rfl).1, (h.1 rfl).2.1 rfl, (h.2 rfl).1, (h.2 rfl).2⟩

/-- C4: `load_models` is idempotent on ready slots.  A constructed `nlp`
slot triggers no `spacy.load` call and is left unchanged; a constructed
`classifier` slot triggers no `pipeline.fit` call and is left unchanged;
with both slots ready the call returns the state untouched with zero
constructions, so a second call in sequence changes nothing observable. -/
theorem load_models_ready_idempotent (sl : Except String Extractor)
    (fo : Except String FittedPipeline) (s : RegistryState) :
    (∀ e, s.nlp = some e →
      (load_models_instr sl fo s).2.2.1 = 0 ∧
        (load_models_instr sl fo s).1.nlp = some e) ∧
    (∀ p, s.classifier = some p →
      (load_models_instr sl fo s).2.2.2 = 0 ∧
        (load_models_instr sl fo s).1.classifier = some p) ∧
    (∀ e p, s.nlp = some e → s.classifier = some p →
      load_models_instr sl fo s = (s, none, 0, 0) ∧
      load_models sl (load_models sl s) = load_models sl s) := by
  refine ⟨?_, ?_, ?_⟩
  · intro e he
    rw [load_models_instr.eq_def]
    cases hc : s.classifier <;> cases fo <;> simp [he, hc]
  · intro p hp
    rw [load_models_instr.eq_def]
    cases hn : s.nlp <;> cases sl <;> simp [hn, hp]
  · intro e p he hp
    have h1 : load_models_instr sl fo s = (s, none, 0, 0) := by
      rw [load_models_instr.eq_def]
      simp [he, hp]
    have h2 : load_models sl s = s := by
      have h3 : load_models_instr sl (Except.ok trainPipeline) s = (s, none, 0, 0) := by
        rw [load_models_instr.eq_def]
        simp [he, hp]
      rw [load_models, h3]
    exact ⟨h1, by rw [h2, h2]⟩

theorem load_models_ready_idempotent_witness :
    load_models_instr (Except.error "x") (Except.ok trainPipeline)
        ⟨some emptyEngine, some trainPipeline⟩ =
      ((⟨some emptyEngine, some trainPipeline⟩ : RegistryState), none, 0, 0) ∧
    load_models (Except.error "x")
        (load_models (Except.error "x") ⟨some emptyEngine, some trainPipeline⟩) =
      load_models (Except.error "x") ⟨some emptyEngine, some trainPipeline⟩ :=
  (load_models_ready_idempotent (Except.error "x") (Except.ok trainPipeline)
    ⟨some emptyEngine, some trainPipeline⟩).2.2 emptyEngine trainPipeline rfl rfl

/-- C5: the two registry slots are independent.  A failing `spacy.load`
never prevents the classifier from training and `classify_text` from
serving; a failing classifier construction never prevents the extractor
from being constructed, and `extract_entities` then serves from the
resulting state without further load attempts. -/
theorem slot_failure_isolation :
    (∀ (err : String) (s : RegistryState) (text : String), s.classifier = none →
      (load_models (Except.error err) s).classifier = some trainPipeline ∧
      (classify_text (Except.error err) s text).2.2 =
        .ok ⟨predictClass text, npMax (predictProba text)⟩) ∧
    (∀ (ferr : String) (engine : Extractor) (s : RegistryState) (text : String)
      (sl2 : Except String Extractor), s.nlp = none →
      (load_models_instr (Except.ok engine) (Except.error ferr) s).1.nlp = some engine ∧
      extract_entities sl2
          (load_models_instr (Except.ok engine) (Except.error ferr) s).1 text =
        ((load_models_instr (Except.ok engine) (Except.error ferr) s).1, 0,
          .ok (runNER engine text))) := by
  constructor
  · intro err s text hc
    have h2 := load_models_classifier (Except.error err) s hc
    refine ⟨h2, ?_⟩
    simp [classify_text, hc, h2]
    exact ⟨rfl, rfl⟩
  · intro ferr engine s text sl2 hn
    have hnlp : (load_models_instr (Except.ok engine) (Except.error ferr) s).1.nlp =
        some engine := by
      rw [load_models_instr.eq_def]
      cases hc : s.classifier <;> simp [hn, hc]
    exact ⟨hnlp, by simp [extract_entities, hnlp]⟩

theorem slot_failure_isolation_witness :
    ((load_models (Except.error "no spacy") ⟨none, none⟩).classifier =
        some trainPipeline ∧
      (classify_text (Except.error "no spacy") ⟨none, none⟩ "hi").2.2 =
        .ok ⟨predictClass "hi", npMax (predictProba "hi")⟩) ∧
    ((load_models_instr (Except.ok emptyEngine) (Except.error "oom")
          ⟨none, none⟩).1.nlp = some emptyEngine ∧
      extract_entities (Except.error "again")
          (load_models_instr (Except.ok emptyEngine) (Except.error "oom")
            ⟨none, none⟩).1 "hi" =
        ((load_models_instr (Except.ok emptyEngine) (Except.error "oom")
            ⟨none, none⟩).1, 0, .ok (runNER emptyEngine "hi"))) :=
  ⟨slot_failure_isolation.1 "no spacy" ⟨none, none⟩ "hi" rfl,
    slot_failure_isolation.2 "oom" emptyEngine ⟨none, none⟩ "hi"
      (Except.error "again") rfl⟩

/-- C6: for an engine whose native span list is in document order and whose
span texts are the exact slices of the input, `extract_entities`' body
returns exactly the filtered native spans in unchanged relative order
(hence document order), with each entity text the exact matched span; the
result is a (possibly empty) list, never null. -/
theorem ner_document_order (engine : Extractor) (text : String)
    (hord : (engine text).Pairwise (fun a b => a.start_char ≤ b.start_char))
    (hspan : ∀ ent ∈ engine text,
      ent.text = sliceOf text ent.start_char ent.end_char) :
    (runNER engine text).entities =
      (keptSpans engine text).map (fun ent => Entity.mk ent.text ent.label_) ∧
    (keptSpans engine text).Pairwise (fun a b => a.start_char ≤ b.start_char) ∧
    ∀ ent ∈ keptSpans engine text,
      ent.text = sliceOf text ent.start_char ent.end_char := by
  refine ⟨rfl, List.Pairwise.filter _ hord, ?_⟩
  intro ent hent
  exact hspan ent (List.mem_of_mem_filter hent)

theorem ner_document_order_witness :
    (runNER demoEngine "Apple released a new iPhone today").entities =
      (keptSpans demoEngine "Apple released a new iPhone today").map
        (fun ent => Entity.mk ent.text ent.label_) ∧
    (keptSpans demoEngine "Apple released a new iPhone today").Pairwise
      (fun a b => a.start_char ≤ b.start_char) ∧
    ∀ ent ∈ keptSpans demoEngine "Apple released a new iPhone today",
      ent.text = sliceOf "Apple released a new iPhone today"
        ent.start_char ent.end_char :=
  ner_document_order demoEngine "Apple released a new iPhone today"
    (by decide) (by decide)

/-- C7: the empty input does not crash `classify`: it deterministically
returns the pipeline's native fallback prediction — the posterior equals
the class prior for every class, and the response is the fixed pair
(earliest class "Finance", confidence 1/4). -/
theorem classify_empty_no_crash :
    classify "" = ⟨"Finance", 1 / 4⟩ ∧ ∀ c, posterior "" c = prior c :=
  ⟨classify_oov "" (by decide), fun c => posterior_oov_prior "" c (by decide)⟩

/-- C8: on the training sentence "Apple released a new iPhone today" the
classifier returns category "Tech" with a Tech posterior strictly above
each other class's posterior, and on "Manchester United wins match" it
returns category "Sports". -/
theorem classify_training_scenarios :
    (classify "Apple released a new iPhone today").category = "Tech" ∧
    (∀ c ∈ classes, c ≠ "Tech" →
      posterior "Apple released a new iPhone today" c <
        posterior "Apple released a new iPhone today" "Tech") ∧
    (classify "Manchester United wins match").category = "Sports" := by
  refine ⟨?_, ?_, ?_⟩
  · show predictClass "Apple released a new iPhone today" = "Tech"
    rw [predictClass, classes_eq]
    show argmaxAux (fun c => likelihood c "Apple released a new iPhone today")
      "Finance" ["Health", "Sports", "Tech"] = "Tech"
    simp only [argmaxAux]
    rw [if_pos (by rw [lik_apple_Finance, lik_apple_Health]; norm_num),
      if_neg (by rw [lik_apple_Health, lik_apple_Sports]; norm_num),
      if_pos (by rw [lik_apple_Health, lik_apple_Tech]; norm_num)]
  · intro c hc hne
    rw [posterior_lt_posterior]
    rw [classes_eq] at hc
    fin_cases hc
    · rw [lik_apple_Finance, lik_apple_Tech]
      norm_num
    · rw [lik_apple_Health, lik_apple_Tech]
      norm_num
    · rw [lik_apple_Sports, lik_apple_Tech]
      norm_num
    · exact absurd rfl hne
  · show predictClass "Manchester United wins match" = "Sports"
    rw [predictClass, classes_eq]
    show argmaxAux (fun c => likelihood c "Manchester United wins match")
      "Finance" ["Health", "Sports", "Tech"] = "Sports"
    simp only [argmaxAux]
    rw [if_neg (by rw [lik_manu_Finance, lik_manu_Health]; norm_num),
      if_pos (by rw [lik_manu_Finance, lik_manu_Sports]; norm_num),
      if_neg (by rw [lik_manu_Sports, lik_manu_Tech]; norm_num)]

/-- C10: any input with no token of the fitted vocabulary yields the
classifier's prior fallback: the posterior equals the class prior, which is
exactly 1/4 for every trained class, and the response is always the same
fixed pair ("Finance", 1/4) — not a confidence-0.0 default. -/
theorem classify_oov_uniform_prior (text : String)
    (h : recognizedTokens text = []) :
    (∀ c ∈ classes, posterior text c = prior c ∧ prior c = 1 / 4) ∧
    classify text = ⟨"Finance", 1 / 4⟩ :=
  ⟨fun c hc => ⟨posterior_oov_prior text c h, prior_eval c hc⟩,
    classify_oov text h⟩

theorem classify_oov_uniform_prior_witness :
    (∀ c ∈ classes,
      posterior "zzzz 1234567" c = prior c ∧ prior c = 1 / 4) ∧
    classify "zzzz 1234567" = ⟨"Finance", 1 / 4⟩ :=
  classify_oov_uniform_prior "zzzz 1234567" (by decide)

end MLApi
